import Mathlib

/-!
# Shallow embedding of `src/main.py` (wildfire drone assignment system)

Modelling conventions, applied uniformly:

* Python floats are modelled by exact real numbers (`ℝ`); float literals such as
  `0.1` or `0.5` denote the corresponding exact rationals.  Scalar input
  attributes (coordinates, capacities, wind, areas, rational time stamps) are
  kept in `ℚ` and cast into `ℝ` where the source performs float arithmetic;
  Python ints are `ℤ`/`ℕ`.
* `datetime.now()` is an explicit parameter `now : ℚ` (seconds on an absolute
  scale); `datetime` values are `ℚ` seconds, so
  `(datetime.now() - t).total_seconds()` becomes `now - t`.
* `round(x, 2)` is rounding half-to-even at two decimal places (`round2`).
* Division in Lean is total (`x / 0 = 0`) whereas Python raises
  `ZeroDivisionError`; all concrete scenarios below use nonzero denominators.
* `heapq` (the only stdlib data structure used) is modelled by its contract:
  the heap of `FilaPrioridade` holds `(prioridade, contador, foco)` entries and
  `heappop` always removes the entry with the lexicographically least
  `(prioridade, contador)` key.  Since `contador` values are pairwise distinct,
  that key order is total and strict, so the abstract queue is represented by
  the list of entries sorted by that key (`List.orderedInsert` on push, head
  removal on pop), which is observationally equivalent to the binary-heap
  layout: the extraction sequence is identical.  The only place the internal
  array order could be observed is `dp_alocacao_otima`'s incident snapshot,
  and none of the properties proved below depend on the order of that
  snapshot.
* `@lru_cache` memoization of `dp_alocacao_otima` is transparent: the function
  is pure in `(focos_bits, drones_disponiveis)` for a fixed system state and
  the cache is cleared before each top-level run, so it is modelled by plain
  recursion.
* `float('inf')` initialization of `melhor_custo`: option 1 (the drone stays
  idle) is evaluated first and its cost is always a real number, so it always
  replaces the infinite initial value; the embedding therefore starts the
  candidate fold directly from the option-1 result.
-/

/-! ## Data model -/

/-- `Drone.status` strings. -/
inductive Status
  | disponivel
  | em_missao
  | manutencao
deriving DecidableEq

/-- `FocoIncendio.status` strings. -/
inductive FocoStatus
  | ativo
  | controlado
  | extinto
deriving DecidableEq

/-- One entry of `Drone.historico_missoes`
(the dict `{'foco_id': …, 'timestamp': …, 'custo': …}`). -/
structure Missao where
  foco_id : ℕ
  timestamp : ℚ
  custo : ℝ

/-- The `Drone` dataclass. -/
structure Drone where
  id : ℕ
  x : ℚ
  y : ℚ
  bateria : ℤ
  capacidade : ℚ
  velocidade : ℚ
  status : Status := Status.disponivel
  historico_missoes : List Missao := []
  combustivel_gasto : ℝ := 0

/-- The `FocoIncendio` dataclass (all fields, including the two derived ones
set by `__post_init__`). -/
structure FocoIncendio where
  id : ℕ
  x : ℚ
  y : ℚ
  intensidade : ℤ
  vento : ℚ
  prioridade : ℤ
  area_afetada : ℚ
  timestamp : ℚ
  status : FocoStatus := FocoStatus.ativo
  recursos_necessarios : ℚ := 0
  tempo_estimado : ℤ := 0
deriving DecidableEq

/-- Python `int(x)` on a float: truncation toward zero. -/
def truncInt (q : ℚ) : ℤ := if 0 ≤ q then ⌊q⌋ else ⌈q⌉

/-- `FocoIncendio.__post_init__`: builds a focus and fills the derived fields
`recursos_necessarios = intensidade * area_afetada * 0.1` and
`tempo_estimado = int(intensidade * 5 + area_afetada * 2)`. -/
def mkFoco (id : ℕ) (x y : ℚ) (intensidade : ℤ) (vento : ℚ) (prioridade : ℤ)
    (area_afetada : ℚ) (timestamp : ℚ) (status : FocoStatus := FocoStatus.ativo) :
    FocoIncendio :=
  { id := id, x := x, y := y, intensidade := intensidade, vento := vento,
    prioridade := prioridade, area_afetada := area_afetada, timestamp := timestamp,
    status := status,
    recursos_necessarios := (intensidade : ℚ) * area_afetada * (1 / 10),
    tempo_estimado := truncInt ((intensidade : ℚ) * 5 + area_afetada * 2) }

instance : Inhabited FocoIncendio :=
  ⟨{ id := 0, x := 0, y := 0, intensidade := 0, vento := 0, prioridade := 0,
     area_afetada := 0, timestamp := 0 }⟩

instance : Inhabited Drone :=
  ⟨{ id := 0, x := 0, y := 0, bateria := 0, capacidade := 0, velocidade := 0 }⟩

/-! ## `FilaPrioridade` (priority queue over `heapq`) -/

/-- One `heapq` tuple `(prioridade, self.contador, foco)`. -/
structure Entry where
  prioridade : ℚ
  contador : ℕ
  foco : FocoIncendio
deriving DecidableEq

/-- Lexicographic comparison of the `(prioridade, contador)` heap keys; the
`foco` component is never compared because `contador` values are distinct. -/
def entryLE (a b : Entry) : Prop :=
  a.prioridade < b.prioridade ∨ (a.prioridade = b.prioridade ∧ a.contador ≤ b.contador)

instance : DecidableRel entryLE := fun a b =>
  inferInstanceAs (Decidable (a.prioridade < b.prioridade ∨
    (a.prioridade = b.prioridade ∧ a.contador ≤ b.contador)))

instance : IsTotal Entry entryLE :=
  ⟨fun a b => by
    unfold entryLE
    rcases lt_trichotomy a.prioridade b.prioridade with h | h | h
    · exact Or.inl (Or.inl h)
    · rcases Nat.le_total a.contador b.contador with hc | hc
      · exact Or.inl (Or.inr ⟨h, hc⟩)
      · exact Or.inr (Or.inr ⟨h.symm, hc⟩)
    · exact Or.inr (Or.inl h)⟩

instance : IsTrans Entry entryLE :=
  ⟨fun a b c hab hbc => by
    unfold entryLE at *
    rcases hab with h1 | ⟨h1, h1'⟩
    · rcases hbc with h2 | ⟨h2, _⟩
      · exact Or.inl (h1.trans h2)
      · exact Or.inl (h2 ▸ h1)
    · rcases hbc with h2 | ⟨h2, h2'⟩
      · exact Or.inl (h1 ▸ h2)
      · exact Or.inr ⟨h1.trans h2, h1'.trans h2'⟩⟩

/-- `FilaPrioridade.__init__`. -/
structure FilaPrioridade where
  heap : List Entry := []
  contador : ℕ := 0

/-- The priority score of a focus at insertion time:
`intensidade * prioridade + area_afetada - tempo_decorrido` where
`tempo_decorrido` is the hours elapsed since detection. -/
def escore (now : ℚ) (f : FocoIncendio) : ℚ :=
  (f.intensidade : ℚ) * (f.prioridade : ℚ) + f.area_afetada - (now - f.timestamp) / 3600

/-- `FilaPrioridade.inserir`: pushes `(-(escore), contador, foco)` and bumps the
counter. -/
def FilaPrioridade.inserir (q : FilaPrioridade) (now : ℚ) (f : FocoIncendio) :
    FilaPrioridade :=
  { heap := List.orderedInsert entryLE
      { prioridade := -(escore now f), contador := q.contador, foco := f } q.heap,
    contador := q.contador + 1 }

/-- `FilaPrioridade.extrair_proximo`: pops the top entry, or returns the `None`
sentinel on an empty heap. -/
def FilaPrioridade.extrair_proximo (q : FilaPrioridade) :
    Option FocoIncendio × FilaPrioridade :=
  match q.heap with
  | [] => (none, q)
  | e :: t => (some e.foco, { heap := t, contador := q.contador })

/-- `FilaPrioridade.tamanho`. -/
def FilaPrioridade.tamanho (q : FilaPrioridade) : ℕ := q.heap.length

/-- The whole extraction sequence: repeatedly `extrair_proximo` until the
sentinel appears (structurally, one entry per step from the front). -/
def drain (q : FilaPrioridade) : List FocoIncendio :=
  q.heap.map (·.foco)

/-! ## Rounding (`round(x, 2)`) -/

/-- Round-half-to-even to the nearest integer (Python `round` on a real). -/
noncomputable def rhe (x : ℝ) : ℤ :=
  if Int.fract x = 1 / 2 then (if Even ⌊x⌋ then ⌊x⌋ else ⌊x⌋ + 1) else ⌊x + 1 / 2⌋

/-- Python `round(x, 2)`. -/
noncomputable def round2 (x : ℝ) : ℝ := (rhe (x * 100) : ℝ) / 100

/-! ## Cost model (`SistemaQueimadas.calcular_custo_completo`) -/

/-- The result dict of `calcular_custo_completo`.  `viavel` is the feasibility
flag; all numeric fields are the reported (two-decimal rounded) values. -/
structure CustoInfo where
  custo_total : ℝ
  distancia : ℝ
  tempo_viagem : ℝ
  custo_combustivel : ℝ
  eficiencia : ℝ
  bateria_necessaria : ℝ
  viavel : Bool

/-- Euclidean distance `np.sqrt((drone.x - foco.x)**2 + (drone.y - foco.y)**2)`. -/
noncomputable def distanciaDF (d : Drone) (f : FocoIncendio) : ℝ :=
  Real.sqrt (((d.x : ℝ) - (f.x : ℝ)) ^ 2 + ((d.y : ℝ) - (f.y : ℝ)) ^ 2)

/-- The unrounded total cost
`(custo_base + penalidade_vento + penalidade_tempo) * bonus_prioridade`
computed at line 159 of the source, before the reporting `round(…, 2)`. -/
noncomputable def custoTotalRaw (now : ℚ) (d : Drone) (f : FocoIncendio) : ℝ :=
  let distancia := distanciaDF d f
  let penalidade_vento := (f.vento : ℝ) * 0.5
  let bonus_prioridade : ℝ := if 0 < f.prioridade then 1 / (f.prioridade : ℝ) else 1
  let penalidade_tempo := ((now : ℝ) - (f.timestamp : ℝ)) / 3600 * 0.1
  let custo_base := distancia * (f.intensidade : ℝ) / (d.capacidade : ℝ)
  (custo_base + penalidade_vento + penalidade_tempo) * bonus_prioridade

/-- The unrounded required battery `tempo_viagem * 10 + foco.tempo_estimado * 2`
used in the feasibility test. -/
noncomputable def bateriaNecessariaRaw (d : Drone) (f : FocoIncendio) : ℝ :=
  distanciaDF d f / (d.velocidade : ℝ) * 10 + (f.tempo_estimado : ℝ) * 2

open Classical in
/-- `SistemaQueimadas.calcular_custo_completo`.  The reported numeric fields
are all rounded to two decimals; the feasibility test compares the unrounded
required battery against the drone's battery. -/
noncomputable def calcular_custo_completo (now : ℚ) (d : Drone) (f : FocoIncendio) :
    CustoInfo :=
  { custo_total := round2 (custoTotalRaw now d f),
    distancia := round2 (distanciaDF d f),
    tempo_viagem := round2 (distanciaDF d f / (d.velocidade : ℝ)),
    custo_combustivel := round2 (distanciaDF d f * (2 - (d.capacidade : ℝ) / 3)),
    eficiencia := round2 (min ((d.capacidade : ℝ) / (f.recursos_necessarios : ℝ)) 1),
    bateria_necessaria := round2 (bateriaNecessariaRaw d f),
    viavel := decide (bateriaNecessariaRaw d f ≤ (d.bateria : ℝ) ∧
      d.status = Status.disponivel) }

/-! ## Dynamic-programming optimizer (`SistemaQueimadas.dp_alocacao_otima`) -/

/-- One element of the returned allocation tuple: `(drone_id, i, custo_info)`. -/
abbrev Aloc := ℕ × ℕ × CustoInfo

/-- The snapshot `[f[2] for f in self.focos_ativos.heap if f[2].status == "ativo"]`
recomputed inside every recursive call. -/
def focosAtivosLista (heap : List Entry) : List FocoIncendio :=
  (heap.map (·.foco)).filter (fun f => decide (f.status = FocoStatus.ativo))

/-- The cost-model query the DP performs for drone id `did` and focus index `i`
(`self.drones[drone_id]` / `focos_ativos_lista[i]`). -/
noncomputable def custoDF (now : ℚ) (drones : List Drone) (fs : List FocoIncendio)
    (did i : ℕ) : CustoInfo :=
  calcular_custo_completo now (drones.getD did default) (fs.getD i default)

open Classical in
/-- One iteration of the `for i, foco in enumerate(focos_ativos_lista)` loop of
`dp_alocacao_otima`: if focus `i` is still unclaimed (`not (focos_bits & (1 << i))`)
and the pair is feasible, the candidate `custo_total + custo_restante` replaces
the current best exactly when it is strictly smaller.  `k` is the recursive
call on the remaining drones. -/
noncomputable def dpStep (now : ℚ) (drones : List Drone) (fs : List FocoIncendio)
    (drone_id : ℕ) (mask : ℕ) (k : ℕ → ℝ × List Aloc)
    (best : ℝ × List Aloc) (i : ℕ) : ℝ × List Aloc :=
  if mask &&& (1 <<< i) = 0 then
    if (custoDF now drones fs drone_id i).viavel then
      if (custoDF now drones fs drone_id i).custo_total + (k (mask ||| (1 <<< i))).1
          < best.1 then
        ((custoDF now drones fs drone_id i).custo_total + (k (mask ||| (1 <<< i))).1,
         (drone_id, i, custoDF now drones fs drone_id i) :: (k (mask ||| (1 <<< i))).2)
      else best
    else best
  else best

/-- The whole candidate loop of `dp_alocacao_otima`, starting from the
option-1 ("drone does nothing") result. -/
noncomputable def dpFold (now : ℚ) (drones : List Drone) (fs : List FocoIncendio)
    (drone_id : ℕ) (mask : ℕ) (k : ℕ → ℝ × List Aloc) :
    List ℕ → ℝ × List Aloc → ℝ × List Aloc
  | [], best => best
  | i :: is, best =>
    dpFold now drones fs drone_id mask k is (dpStep now drones fs drone_id mask k best i)

open Classical in
/-- `SistemaQueimadas.dp_alocacao_otima focos_bits drones_disponiveis` for the
system whose drone list is `drones` and whose active-incident heap is `heap`. -/
noncomputable def dp_alocacao_otima (now : ℚ) (drones : List Drone)
    (heap : List Entry) : ℕ → List ℕ → ℝ × List Aloc
  | _, [] => (0, [])
  | mask, drone_id :: restantes =>
    let fs := focosAtivosLista heap
    if fs = [] ∨ mask = (1 <<< fs.length) - 1 then (0, [])
    else
      dpFold now drones fs drone_id mask
        (fun m => dp_alocacao_otima now drones heap m restantes)
        (List.range fs.length)
        (dp_alocacao_otima now drones heap mask restantes)

/-! ## System state (`SistemaQueimadas`) -/

/-- One record of `self.historico_operacoes` (timing and cache counters, which
are wall-clock artifacts, are not modelled). -/
structure Operacao where
  custo_total : ℝ
  alocacoes : ℕ

/-- The mutable state of `SistemaQueimadas`: drones, the active-focus queue,
the resolved-focus history, the two statistics counters the methods touch, and
the operation log.  (`cache_dp` is dead code in the source and the plotting
fields are out of scope.) -/
structure Sistema where
  drones : List Drone
  focosAtivos : FilaPrioridade
  focosHistorico : List FocoIncendio := []
  focosDetectados : ℕ := 0
  focosAtendidos : ℕ := 0
  historicoOperacoes : List Operacao := []

/-- The result of `executar_alocacao_otima`: either the
`{'erro': 'Nenhum drone disponível'}` dict or the success dict (total cost and
the processed allocation list `(drone_id, foco.id, custo_info)`). -/
inductive ExecResult
  | erro
  | ok (custo_total : ℝ) (alocacoes : List (ℕ × ℕ × CustoInfo))

open Classical in
/-- `SistemaQueimadas.executar_alocacao_otima`: clears the cache (transparent
here), collects available drone ids, returns the error dict when there are
none, otherwise runs the DP and applies the allocations to the drone list. -/
noncomputable def executar_alocacao_otima (now : ℚ) (s : Sistema) :
    ExecResult × Sistema :=
  let drones_disponiveis :=
    (s.drones.filter (fun d => decide (d.status = Status.disponivel))).map (·.id)
  if drones_disponiveis = [] then (ExecResult.erro, s)
  else
    let res := dp_alocacao_otima now s.drones s.focosAtivos.heap 0 drones_disponiveis
    let fs := focosAtivosLista s.focosAtivos.heap
    let pr := res.2.foldl
      (fun (acc : List Drone × List (ℕ × ℕ × CustoInfo)) (a : Aloc) =>
        if a.2.1 < fs.length then
          let foco := fs.getD a.2.1 default
          let d := acc.1.getD a.1 default
          (acc.1.set a.1
            { d with
              status := Status.em_missao,
              combustivel_gasto := d.combustivel_gasto + a.2.2.custo_combustivel,
              historico_missoes := d.historico_missoes ++
                [{ foco_id := foco.id, timestamp := now, custo := a.2.2.custo_total }] },
           acc.2 ++ [(a.1, foco.id, a.2.2)])
        else acc)
      (s.drones, [])
    (ExecResult.ok res.1 pr.2,
     { s with
       drones := pr.1,
       historicoOperacoes := s.historicoOperacoes ++ [⟨res.1, pr.2.length⟩] })

/-- The per-drone release step of `atender_proxima_ocorrencia`: a drone that is
on mission and whose mission history references the focus is released and its
battery decremented (`max(20, bateria - 15)`); every other drone is unchanged. -/
def liberarDrone (fid : ℕ) (d : Drone) : Drone :=
  if d.status = Status.em_missao ∧ d.historico_missoes.any (fun m => m.foco_id == fid)
  then { d with status := Status.disponivel, bateria := max 20 (d.bateria - 15) }
  else d

/-- `SistemaQueimadas.atender_proxima_ocorrencia`.  The Python method returns
`None` on every path (the early `return` and the implicit end of the body); the
first component records that sentinel. -/
def atender_proxima_ocorrencia (s : Sistema) : Option FocoIncendio × Sistema :=
  match s.focosAtivos.extrair_proximo with
  | (none, _) => (none, s)
  | (some foco, fila) =>
    (none,
     { s with
       focosAtivos := fila,
       focosHistorico := s.focosHistorico ++ [{ foco with status := FocoStatus.controlado }],
       focosAtendidos := s.focosAtendidos + 1,
       drones := s.drones.map (liberarDrone foco.id) })

/-! ## Specification-side definitions used by the claims -/

/-- Sum of the `custo_total` fields carried by an allocation list. -/
noncomputable def alocCustoSum (l : List Aloc) : ℝ :=
  (l.map (fun a => a.2.2.custo_total)).sum

/-- A partial assignment over the drone-id sequence `ids` and the active-focus
snapshot `fs`: a list of `(drone_id, focus_index)` pairs in which every drone
id comes from `ids` and is used at most once, every focus index points into
the snapshot and is used at most once (drones may be left idle), and every
pair is feasible for the cost model.  This is the state space over which the
optimizer is claimed to minimize. -/
def MatchingValido (now : ℚ) (drones : List Drone) (fs : List FocoIncendio)
    (ids : List ℕ) (A : List (ℕ × ℕ)) : Prop :=
  (A.map Prod.fst).Nodup ∧ (A.map Prod.snd).Nodup ∧
    ∀ p ∈ A, p.1 ∈ ids ∧ p.2 < fs.length ∧
      (custoDF now drones fs p.1 p.2).viavel = true

/-- Total cost of a partial assignment: the sum of the cost model's
`custo_total` over its pairs. -/
noncomputable def custoMatching (now : ℚ) (drones : List Drone)
    (fs : List FocoIncendio) (A : List (ℕ × ℕ)) : ℝ :=
  (A.map (fun p => (custoDF now drones fs p.1 p.2).custo_total)).sum

/-- The element-wise soundness invariant of the DP results, relative to a bit
mask of already-claimed focus indices. -/
def AlocSound (now : ℚ) (drones : List Drone) (fs : List FocoIncendio) (mask : ℕ)
    (ids : List ℕ) (l : List Aloc) : Prop :=
  ∀ a ∈ l, a.1 ∈ ids ∧ a.2.1 < fs.length ∧
    mask &&& (1 <<< a.2.1) = 0 ∧
    a.2.2 = custoDF now drones fs a.1 a.2.1 ∧
    a.2.2.viavel = true

/-- Sequence of insertions into a fresh priority queue, each with its own
insertion-time clock reading. -/
def insereTodos (L : List (ℚ × FocoIncendio)) : FilaPrioridade :=
  L.foldl (fun q tf => q.inserir tf.1 tf.2) {}

/-- Internal well-formedness of a priority queue reachable from the empty one:
the heap is sorted by the `(prioridade, contador)` key, counters are pairwise
distinct and all below the next counter value. -/
def FilaInv (q : FilaPrioridade) : Prop :=
  q.heap.Sorted entryLE ∧ (q.heap.map (·.contador)).Nodup ∧
    ∀ e ∈ q.heap, e.contador < q.contador

/-! ### Concrete scenario data -/

/-- Scenario of claim C1: unit at the incident's position `(0, 0)`. -/
def droneC1a : Drone :=
  { id := 0, x := 0, y := 0, bateria := 100, capacidade := 2, velocidade := 30 }

/-- Scenario of claim C1: unit at `(10, 10)`. -/
def droneC1b : Drone :=
  { id := 1, x := 10, y := 10, bateria := 100, capacidade := 2, velocidade := 30 }

/-- Scenario of claim C1: one just-detected incident at `(0, 0)` with
intensity 1, priority 1, area 1 — detected at `now = 0`, wind factor 1. -/
def focoC1 : FocoIncendio := mkFoco 0 0 0 1 1 1 1 0

/-- Scenario of claim C1 as a system state (both drones available, the single
incident inserted into the queue at its detection time). -/
def sistemaC1 : Sistema :=
  { drones := [droneC1a, droneC1b],
    focosAtivos := FilaPrioridade.inserir {} 0 focoC1 }

/-- A drone colocated with `focoFuturo`, used to exhibit a state in which the
optimizer actually assigns (the staleness penalty is negative because the
detection timestamp lies in the future). -/
def droneNeg : Drone :=
  { id := 0, x := 0, y := 0, bateria := 100, capacidade := 2, velocidade := 30 }

/-- A focus whose detection timestamp (36000 s) lies after the call time 0, so
its staleness penalty is `-1` and its total cost is negative. -/
def focoFuturo : FocoIncendio := mkFoco 0 0 0 1 0 1 1 36000

/-- A focus like `focoFuturo` but with timestamp 36180 s, making the unrounded
total cost `-1.005`, which the cost model reports rounded as `-1.0`. -/
def focoFuturo2 : FocoIncendio := mkFoco 0 0 0 1 0 1 1 36180

/-- The cost dict the model produces for `(droneNeg, focoFuturo)` at time 0. -/
def ciNeg : CustoInfo :=
  { custo_total := -1, distancia := 0, tempo_viagem := 0, custo_combustivel := 0,
    eficiencia := 1, bateria_necessaria := 14, viavel := true }

/-- Heap holding just `focoFuturo`, inserted at time 0. -/
def heapNeg : List Entry := (FilaPrioridade.inserir {} 0 focoFuturo).heap

/-- Heap holding just `focoFuturo2`, inserted at time 0. -/
def heapNeg2 : List Entry := (FilaPrioridade.inserir {} 0 focoFuturo2).heap

/-- A drone in maintenance whose mission history references focus 7. -/
def droneManut : Drone :=
  { id := 0, x := 0, y := 0, bateria := 100, capacidade := 2, velocidade := 30,
    status := Status.manutencao,
    historico_missoes := [{ foco_id := 7, timestamp := 0, custo := 0 }] }

/-- An active focus with id 7 (the one `droneManut`'s history references). -/
def foco7 : FocoIncendio := mkFoco 7 0 0 1 1 1 1 0

/-- State for the C6 counterexample: focus 7 pending, one drone in maintenance
whose history references it. -/
def sistemaManut : Sistema :=
  { drones := [droneManut],
    focosAtivos := FilaPrioridade.inserir {} 0 foco7 }

/-- A system with a single drone that is on mission (so no drone is available). -/
def sistemaSemDisponiveis : Sistema :=
  { drones := [{ id := 0, x := 0, y := 0, bateria := 50, capacidade := 2,
                 velocidade := 30, status := Status.em_missao }],
    focosAtivos := FilaPrioridade.inserir {} 0 focoC1 }

/-- A system whose incident queue is empty. -/
def sistemaFilaVazia : Sistema :=
  { drones := [droneC1a], focosAtivos := {} }

/-- C7 concrete scenario: a focus whose insertion-time score is 5. -/
def focoS5 : FocoIncendio := mkFoco 0 0 0 5 0 1 0 0

/-- C7 concrete scenario: a focus whose insertion-time score is 3. -/
def focoS3 : FocoIncendio := mkFoco 1 0 0 3 0 1 0 0

/-- C7 concrete scenario: a focus whose insertion-time score is 8. -/
def focoS8 : FocoIncendio := mkFoco 2 0 0 8 0 1 0 0

/-! # Theorems -/

/-! ## Rounding -/

theorem rhe_intCast (n : ℤ) : rhe (n : ℝ) = n := by
  unfold rhe
  rw [Int.fract_intCast, if_neg (by norm_num),
    show ((n : ℝ) + 1 / 2) = (1 / 2 : ℝ) + (n : ℤ) by ring,
    Int.floor_add_int]
  norm_num

theorem floor_le_rhe (x : ℝ) : ⌊x⌋ ≤ rhe x := by
  unfold rhe
  split_ifs with h h2
  · exact le_refl _
  · exact le_of_lt (lt_add_one _)
  · exact Int.floor_le_floor (by linarith)

theorem rhe_le_floor_add_one (x : ℝ) : rhe x ≤ ⌊x⌋ + 1 := by
  unfold rhe
  split_ifs with h h2
  · exact le_of_lt (lt_add_one _)
  · exact le_refl _
  · have : x + 1 / 2 ≤ x + 1 := by linarith
    calc ⌊x + 1/2⌋ ≤ ⌊x + 1⌋ := Int.floor_le_floor this
      _ = ⌊x⌋ + 1 := by rw [show x + 1 = x + (1:ℤ) by push_cast; ring, Int.floor_add_int]

theorem rhe_mono {x y : ℝ} (h : x ≤ y) : rhe x ≤ rhe y := by
  have hx' : x = (⌊x⌋ : ℝ) + Int.fract x := by rw [Int.floor_add_fract]
  have hy' : y = (⌊y⌋ : ℝ) + Int.fract y := by rw [Int.floor_add_fract]
  by_cases hx : Int.fract x = 1 / 2 <;> by_cases hy : Int.fract y = 1 / 2
  · have hf : ⌊x⌋ ≤ ⌊y⌋ := Int.floor_le_floor h
    rcases eq_or_lt_of_le hf with he | hl
    · unfold rhe
      rw [if_pos hx, if_pos hy, he]
    · calc rhe x ≤ ⌊x⌋ + 1 := rhe_le_floor_add_one x
        _ ≤ ⌊y⌋ := hl
        _ ≤ rhe y := floor_le_rhe y
  · have h1 : rhe x ≤ ⌊x⌋ + 1 := rhe_le_floor_add_one x
    have h2 : (⌊x⌋ : ℤ) + 1 ≤ ⌊y + 1 / 2⌋ := by
      rw [Int.le_floor]
      push_cast
      rw [hx] at hx'
      linarith
    rw [rhe, if_pos hx] at h1 ⊢
    rw [rhe, if_neg hy]
    exact h1.trans h2
  · have h2 : (⌊y⌋ : ℤ) ≤ rhe y := floor_le_rhe y
    have h1 : ⌊x + 1 / 2⌋ ≤ ⌊y⌋ := by
      by_contra hc
      push_neg at hc
      have : (⌊y⌋ : ℤ) + 1 ≤ ⌊x + 1 / 2⌋ := hc
      rw [Int.le_floor] at this
      push_cast at this
      rw [hy] at hy'
      have hxy : x = y := le_antisymm h (by linarith)
      rw [hxy, hy] at hx
      norm_num at hx
    unfold rhe
    rw [if_neg hx]
    exact h1.trans h2
  · unfold rhe
    rw [if_neg hx, if_neg hy]
    exact Int.floor_le_floor (by linarith)

theorem round2_mono {x y : ℝ} (h : x ≤ y) : round2 x ≤ round2 y := by
  unfold round2
  have := rhe_mono (mul_le_mul_of_nonneg_right h (by norm_num : (0:ℝ) ≤ 100))
  have h2 : ((rhe (x * 100) : ℤ) : ℝ) ≤ ((rhe (y * 100) : ℤ) : ℝ) := by exact_mod_cast this
  linarith

theorem round2_nonneg {x : ℝ} (h : 0 ≤ x) : 0 ≤ round2 x := by
  have h0 : round2 0 ≤ round2 x := round2_mono h
  unfold round2 at h0
  rw [show (0:ℝ) * 100 = ((0:ℤ):ℝ) by norm_num, rhe_intCast] at h0
  simpa using h0

theorem round2_div_100 (n : ℤ) : round2 ((n : ℝ) / 100) = (n : ℝ) / 100 := by
  unfold round2
  rw [show (n : ℝ) / 100 * 100 = (n : ℝ) by field_simp, rhe_intCast]

theorem round2_intCast (n : ℤ) : round2 (n : ℝ) = n := by
  have h := round2_div_100 (n * 100)
  rw [show ((n * 100 : ℤ) : ℝ) / 100 = (n : ℝ) by push_cast; field_simp] at h
  exact h

/-! ## Cost model lemmas -/

theorem custo_total_eq (now : ℚ) (d : Drone) (f : FocoIncendio) :
    (calcular_custo_completo now d f).custo_total = round2 (custoTotalRaw now d f) := rfl

theorem viavel_iff (now : ℚ) (d : Drone) (f : FocoIncendio) :
    (calcular_custo_completo now d f).viavel = true ↔
      (bateriaNecessariaRaw d f ≤ (d.bateria : ℝ) ∧ d.status = Status.disponivel) := by
  simp [calcular_custo_completo]

theorem bonus_prioridade_nonneg (p : ℤ) :
    (0 : ℝ) ≤ (if 0 < p then 1 / (p : ℝ) else 1) := by
  split_ifs with hp
  · have : (0:ℝ) < (p : ℝ) := by exact_mod_cast hp
    positivity
  · norm_num

theorem custoTotalRaw_nonneg (now : ℚ) (d : Drone) (f : FocoIncendio)
    (hv : 0 ≤ f.vento) (ht : f.timestamp ≤ now) (hi : 0 ≤ f.intensidade)
    (hc : 0 ≤ d.capacidade) : 0 ≤ custoTotalRaw now d f := by
  unfold custoTotalRaw
  have hd : (0:ℝ) ≤ distanciaDF d f := Real.sqrt_nonneg _
  have h1 : (0:ℝ) ≤ distanciaDF d f * (f.intensidade : ℝ) / (d.capacidade : ℝ) := by
    apply div_nonneg
    · exact mul_nonneg hd (by exact_mod_cast hi)
    · exact_mod_cast hc
  have h2 : (0:ℝ) ≤ (f.vento : ℝ) * 0.5 := by
    have : (0:ℝ) ≤ (f.vento : ℝ) := by exact_mod_cast hv
    linarith
  have h3 : (0:ℝ) ≤ ((now : ℝ) - (f.timestamp : ℝ)) / 3600 * 0.1 := by
    have hts : (f.timestamp : ℝ) ≤ (now : ℝ) := by exact_mod_cast ht
    have h0 : (0:ℝ) ≤ ((now : ℝ) - (f.timestamp : ℝ)) / 3600 :=
      div_nonneg (by linarith) (by norm_num)
    linarith
  exact mul_nonneg (by linarith) (bonus_prioridade_nonneg f.prioridade)

theorem custo_total_nonneg (now : ℚ) (d : Drone) (f : FocoIncendio)
    (hv : 0 ≤ f.vento) (ht : f.timestamp ≤ now) (hi : 0 ≤ f.intensidade)
    (hc : 0 ≤ d.capacidade) : 0 ≤ (calcular_custo_completo now d f).custo_total := by
  rw [custo_total_eq]
  exact round2_nonneg (custoTotalRaw_nonneg now d f hv ht hi hc)

/-! ## Bitmask facts -/

theorem and_shift_eq_zero_iff (m i : ℕ) :
    m &&& (1 <<< i) = 0 ↔ m.testBit i = false := by
  rw [Nat.shiftLeft_eq, one_mul, Nat.and_two_pow]
  cases h : m.testBit i <;> simp [h]

theorem and_shift_or_left {m i j : ℕ} (h : (m ||| (1 <<< i)) &&& (1 <<< j) = 0) :
    m &&& (1 <<< j) = 0 := by
  rw [and_shift_eq_zero_iff] at h ⊢
  rw [Nat.testBit_or] at h
  exact (Bool.or_eq_false_iff.mp h).1

theorem and_shift_or_ne {m i j : ℕ} (h : (m ||| (1 <<< i)) &&& (1 <<< j) = 0) :
    j ≠ i := by
  rw [and_shift_eq_zero_iff, Nat.testBit_or] at h
  intro he
  subst he
  rw [Nat.shiftLeft_eq, one_mul, Nat.testBit_two_pow] at h
  simp at h

theorem and_shift_or_of {m i j : ℕ} (hm : m &&& (1 <<< j) = 0) (hne : j ≠ i) :
    (m ||| (1 <<< i)) &&& (1 <<< j) = 0 := by
  rw [and_shift_eq_zero_iff] at hm ⊢
  rw [Nat.testBit_or, hm, Nat.shiftLeft_eq, one_mul, Nat.testBit_two_pow]
  simp [Ne.symm hne]

theorem mask_full_all_set {n i : ℕ} (hi : i < n) :
    ¬((1 <<< n) - 1) &&& (1 <<< i) = 0 := by
  rw [and_shift_eq_zero_iff, Nat.shiftLeft_eq, one_mul]
  simp [Nat.testBit_two_pow_sub_one, hi]

/-! ## DP fold lemmas -/

theorem dpStep_fst_le (now : ℚ) (drones : List Drone) (fs : List FocoIncendio)
    (did mask : ℕ) (k : ℕ → ℝ × List Aloc) (best : ℝ × List Aloc) (i : ℕ) :
    (dpStep now drones fs did mask k best i).1 ≤ best.1 := by
  unfold dpStep
  split_ifs with h1 h2 h3
  · exact le_of_lt h3
  all_goals exact le_refl _

theorem dpStep_eq_or (now : ℚ) (drones : List Drone) (fs : List FocoIncendio)
    (did mask : ℕ) (k : ℕ → ℝ × List Aloc) (best : ℝ × List Aloc) (i : ℕ) :
    dpStep now drones fs did mask k best i = best ∨
      (mask &&& (1 <<< i) = 0 ∧ (custoDF now drones fs did i).viavel = true ∧
        dpStep now drones fs did mask k best i =
          ((custoDF now drones fs did i).custo_total + (k (mask ||| (1 <<< i))).1,
           (did, i, custoDF now drones fs did i) :: (k (mask ||| (1 <<< i))).2)) := by
  unfold dpStep
  split_ifs with h1 h2 h3
  · exact Or.inr ⟨h1, h2, rfl⟩
  all_goals exact Or.inl rfl

theorem dpStep_le_cand (now : ℚ) (drones : List Drone) (fs : List FocoIncendio)
    (did mask : ℕ) (k : ℕ → ℝ × List Aloc) (best : ℝ × List Aloc) (i : ℕ)
    (h1 : mask &&& (1 <<< i) = 0) (h2 : (custoDF now drones fs did i).viavel = true) :
    (dpStep now drones fs did mask k best i).1 ≤
      (custoDF now drones fs did i).custo_total + (k (mask ||| (1 <<< i))).1 := by
  unfold dpStep
  rw [if_pos h1]
  simp only [h2, if_pos]
  split_ifs with h3
  · exact le_refl _
  · exact le_of_not_lt h3

theorem dpFold_fst_le (now : ℚ) (drones : List Drone) (fs : List FocoIncendio)
    (did mask : ℕ) (k : ℕ → ℝ × List Aloc) :
    ∀ (cand : List ℕ) (best : ℝ × List Aloc),
      (dpFold now drones fs did mask k cand best).1 ≤ best.1 := by
  intro cand
  induction cand with
  | nil => intro best; exact le_refl _
  | cons i is ih =>
    intro best
    calc (dpFold now drones fs did mask k (i :: is) best).1
        ≤ (dpStep now drones fs did mask k best i).1 := ih _
      _ ≤ best.1 := dpStep_fst_le now drones fs did mask k best i

theorem dpFold_fst_le_cand (now : ℚ) (drones : List Drone) (fs : List FocoIncendio)
    (did mask : ℕ) (k : ℕ → ℝ × List Aloc) :
    ∀ (cand : List ℕ) (best : ℝ × List Aloc) (i : ℕ), i ∈ cand →
      mask &&& (1 <<< i) = 0 → (custoDF now drones fs did i).viavel = true →
      (dpFold now drones fs did mask k cand best).1 ≤
        (custoDF now drones fs did i).custo_total + (k (mask ||| (1 <<< i))).1 := by
  intro cand
  induction cand with
  | nil => intro best i hi; exact absurd hi (List.not_mem_nil i)
  | cons j js ih =>
    intro best i hi h1 h2
    rcases List.mem_cons.mp hi with he | hm
    · subst he
      calc (dpFold now drones fs did mask k (i :: js) best).1
          ≤ (dpStep now drones fs did mask k best i).1 := dpFold_fst_le now drones fs did mask k js _
        _ ≤ _ := dpStep_le_cand now drones fs did mask k best i h1 h2
    · exact ih _ i hm h1 h2

theorem dpFold_pres (now : ℚ) (drones : List Drone) (fs : List FocoIncendio)
    (did mask : ℕ) (k : ℕ → ℝ × List Aloc) (P : ℝ × List Aloc → Prop) :
    ∀ cand : List ℕ,
      (∀ i ∈ cand, mask &&& (1 <<< i) = 0 → (custoDF now drones fs did i).viavel = true →
        P ((custoDF now drones fs did i).custo_total + (k (mask ||| (1 <<< i))).1,
           (did, i, custoDF now drones fs did i) :: (k (mask ||| (1 <<< i))).2)) →
      ∀ best : ℝ × List Aloc, P best →
        P (dpFold now drones fs did mask k cand best) := by
  intro cand
  induction cand with
  | nil => intro _ best hb; exact hb
  | cons i is ih =>
    intro hcand best hb
    apply ih (fun j hj => hcand j (List.mem_cons_of_mem i hj))
    rcases dpStep_eq_or now drones fs did mask k best i with he | ⟨h1, h2, he⟩
    · rw [he]; exact hb
    · rw [he]; exact hcand i (List.mem_cons_self i is) h1 h2

theorem dpFold_no_update (now : ℚ) (drones : List Drone) (fs : List FocoIncendio)
    (did mask : ℕ) (k : ℕ → ℝ × List Aloc) :
    ∀ (cand : List ℕ) (best : ℝ × List Aloc),
      (∀ i ∈ cand, mask &&& (1 <<< i) = 0 → (custoDF now drones fs did i).viavel = true →
        ¬((custoDF now drones fs did i).custo_total + (k (mask ||| (1 <<< i))).1 < best.1)) →
      dpFold now drones fs did mask k cand best = best := by
  intro cand
  induction cand with
  | nil => intro best _; rfl
  | cons i is ih =>
    intro best h
    have hstep : dpStep now drones fs did mask k best i = best := by
      unfold dpStep
      split_ifs with h1 h2 h3
      · exact absurd h3 (h i (List.mem_cons_self i is) h1 h2)
      all_goals rfl
    show dpFold now drones fs did mask k is (dpStep now drones fs did mask k best i) = best
    rw [hstep]
    exact ih best (fun j hj => h j (List.mem_cons_of_mem i hj))

/-! ## DP equations and structural lemmas -/

theorem dp_nil (now : ℚ) (drones : List Drone) (heap : List Entry) (mask : ℕ) :
    dp_alocacao_otima now drones heap mask [] = (0, []) := by
  simp [dp_alocacao_otima]

theorem dp_cons (now : ℚ) (drones : List Drone) (heap : List Entry) (mask : ℕ)
    (did : ℕ) (rest : List ℕ) :
    dp_alocacao_otima now drones heap mask (did :: rest) =
      if focosAtivosLista heap = [] ∨
          mask = (1 <<< (focosAtivosLista heap).length) - 1 then (0, [])
      else
        dpFold now drones (focosAtivosLista heap) did mask
          (fun m => dp_alocacao_otima now drones heap m rest)
          (List.range (focosAtivosLista heap).length)
          (dp_alocacao_otima now drones heap mask rest) := by
  rw [dp_alocacao_otima]

theorem dp_exit (now : ℚ) (drones : List Drone) (heap : List Entry) (mask : ℕ)
    (h : focosAtivosLista heap = [] ∨
      mask = (1 <<< (focosAtivosLista heap).length) - 1) :
    ∀ ids : List ℕ, dp_alocacao_otima now drones heap mask ids = (0, []) := by
  intro ids
  cases ids with
  | nil => exact dp_nil now drones heap mask
  | cons did rest => rw [dp_cons, if_pos h]

theorem dp_fst_le_tail (now : ℚ) (drones : List Drone) (heap : List Entry)
    (mask : ℕ) (did : ℕ) (rest : List ℕ) :
    (dp_alocacao_otima now drones heap mask (did :: rest)).1 ≤
      (dp_alocacao_otima now drones heap mask rest).1 := by
  rw [dp_cons]
  split_ifs with hexit
  · rw [dp_exit now drones heap mask hexit rest]
  · exact dpFold_fst_le now drones (focosAtivosLista heap) did mask _ _ _

theorem dp_sound (now : ℚ) (drones : List Drone) (heap : List Entry) :
    ∀ (ids : List ℕ) (mask : ℕ),
      (dp_alocacao_otima now drones heap mask ids).1 =
        alocCustoSum (dp_alocacao_otima now drones heap mask ids).2 ∧
      AlocSound now drones (focosAtivosLista heap) mask ids
        (dp_alocacao_otima now drones heap mask ids).2 ∧
      ((dp_alocacao_otima now drones heap mask ids).2.map (fun a => a.2.1)).Nodup := by
  intro ids
  induction ids with
  | nil =>
    intro mask
    rw [dp_nil]
    refine ⟨by simp [alocCustoSum], ?_, by simp⟩
    intro a ha
    exact absurd ha (List.not_mem_nil a)
  | cons did rest ih =>
    intro mask
    rw [dp_cons]
    split_ifs with hexit
    · refine ⟨by simp [alocCustoSum], ?_, by simp⟩
      intro a ha
      exact absurd ha (List.not_mem_nil a)
    · apply dpFold_pres now drones (focosAtivosLista heap) did mask _
        (fun r => r.1 = alocCustoSum r.2 ∧
          AlocSound now drones (focosAtivosLista heap) mask (did :: rest) r.2 ∧
          (r.2.map (fun a => a.2.1)).Nodup)
      · -- every examined candidate keeps the invariant
        intro i hi h1 h2
        obtain ⟨s1, s2, s3⟩ := ih (mask ||| (1 <<< i))
        refine ⟨by simp [alocCustoSum, s1], ?_, ?_⟩
        · intro a ha
          rcases List.mem_cons.mp ha with he | hm
          · subst he
            exact ⟨List.mem_cons_self did rest, List.mem_range.mp hi, h1, rfl, h2⟩
          · obtain ⟨m1, m2, m3, m4, m5⟩ := s2 a hm
            exact ⟨List.mem_cons_of_mem did m1, m2, and_shift_or_left m3, m4, m5⟩
        · rw [List.map_cons, List.nodup_cons]
          refine ⟨?_, s3⟩
          intro hmem
          obtain ⟨a, ha, hai⟩ := List.mem_map.mp hmem
          obtain ⟨_, _, m3, _, _⟩ := s2 a ha
          exact and_shift_or_ne m3 hai
      · -- option 1 (drone idle) satisfies the invariant
        obtain ⟨s1, s2, s3⟩ := ih mask
        refine ⟨s1, ?_, s3⟩
        intro a ha
        obtain ⟨m1, m2, m3, m4, m5⟩ := s2 a ha
        exact ⟨List.mem_cons_of_mem did m1, m2, m3, m4, m5⟩

theorem dp_nodup_fst (now : ℚ) (drones : List Drone) (heap : List Entry) :
    ∀ (ids : List ℕ) (mask : ℕ), ids.Nodup →
      ((dp_alocacao_otima now drones heap mask ids).2.map (fun a => a.1)).Nodup := by
  intro ids
  induction ids with
  | nil => intro mask _; rw [dp_nil]; simp
  | cons did rest ih =>
    intro mask hnd
    rw [dp_cons]
    split_ifs with hexit
    · simp
    · apply dpFold_pres now drones (focosAtivosLista heap) did mask _
        (fun r => (r.2.map (fun a => a.1)).Nodup)
      · intro i hi h1 h2
        rw [List.map_cons, List.nodup_cons]
        constructor
        · intro hmem
          obtain ⟨a, ha, hai⟩ := List.mem_map.mp hmem
          obtain ⟨m1, _, _, _, _⟩ :=
            (dp_sound now drones heap rest (mask ||| (1 <<< i))).2.1 a ha
          rw [hai] at m1
          exact (List.nodup_cons.mp hnd).1 m1
        · exact ih (mask ||| (1 <<< i)) (List.nodup_cons.mp hnd).2
      · exact ih mask (List.nodup_cons.mp hnd).2

theorem dp_lower (now : ℚ) (drones : List Drone) (heap : List Entry) :
    ∀ (ids : List ℕ) (mask : ℕ) (A : List (ℕ × ℕ)),
      (A.map Prod.fst).Nodup → (A.map Prod.snd).Nodup →
      (∀ p ∈ A, p.1 ∈ ids ∧ p.2 < (focosAtivosLista heap).length ∧
        mask &&& (1 <<< p.2) = 0 ∧
        (custoDF now drones (focosAtivosLista heap) p.1 p.2).viavel = true) →
      (dp_alocacao_otima now drones heap mask ids).1 ≤
        custoMatching now drones (focosAtivosLista heap) A := by
  intro ids
  induction ids with
  | nil =>
    intro mask A _ _ hmem
    have hA : A = [] := by
      cases A with
      | nil => rfl
      | cons p ps => exact absurd (hmem p (List.mem_cons_self p ps)).1 (List.not_mem_nil p.1)
    subst hA
    rw [dp_nil]
    simp [custoMatching]
  | cons did rest ih =>
    intro mask A hf hs hmem
    by_cases hA : ∃ p ∈ A, p.1 = did
    · obtain ⟨p, hpA, hp1⟩ := hA
      obtain ⟨s, t, hst⟩ := List.append_of_mem hpA
      have hperm : A.Perm (p :: (s ++ t)) := by
        rw [hst]
        exact List.perm_middle
      have hfp := (hperm.map Prod.fst).nodup_iff.mp hf
      have hsp := (hperm.map Prod.snd).nodup_iff.mp hs
      rw [List.map_cons, List.nodup_cons] at hfp hsp
      have hsum : custoMatching now drones (focosAtivosLista heap) A =
          (custoDF now drones (focosAtivosLista heap) p.1 p.2).custo_total +
            custoMatching now drones (focosAtivosLista heap) (s ++ t) := by
        unfold custoMatching
        rw [List.Perm.sum_eq (hperm.map _)]
        simp
      obtain ⟨_, hplen, hpfree, hpvia⟩ := hmem p hpA
      have hnotexit : ¬(focosAtivosLista heap = [] ∨
          mask = (1 <<< (focosAtivosLista heap).length) - 1) := by
        rintro (h | h)
        · rw [h] at hplen
          exact absurd hplen (Nat.not_lt_zero p.2)
        · rw [h] at hpfree
          exact mask_full_all_set hplen hpfree
      have hstep : (dp_alocacao_otima now drones heap mask (did :: rest)).1 ≤
          (custoDF now drones (focosAtivosLista heap) p.1 p.2).custo_total +
            (dp_alocacao_otima now drones heap (mask ||| (1 <<< p.2)) rest).1 := by
        rw [dp_cons, if_neg hnotexit, hp1]
        exact dpFold_fst_le_cand now drones (focosAtivosLista heap) did mask _ _ _
          p.2 (List.mem_range.mpr hplen) hpfree (by rw [← hp1]; exact hpvia)
      have hrec : (dp_alocacao_otima now drones heap (mask ||| (1 <<< p.2)) rest).1 ≤
          custoMatching now drones (focosAtivosLista heap) (s ++ t) := by
        apply ih (mask ||| (1 <<< p.2)) (s ++ t) hfp.2 hsp.2
        intro a ha
        have haA : a ∈ A := hperm.mem_iff.mpr (List.mem_cons_of_mem p ha)
        obtain ⟨b1, b2, b3, b4⟩ := hmem a haA
        have hfst : a.1 ∈ rest := by
          rcases List.mem_cons.mp b1 with he | hm
          · exfalso
            apply hfp.1
            rw [hp1, ← he]
            exact List.mem_map_of_mem Prod.fst ha
          · exact hm
        have hsnd : a.2 ≠ p.2 := by
          intro he
          apply hsp.1
          rw [← he]
          exact List.mem_map_of_mem Prod.snd ha
        exact ⟨hfst, b2, and_shift_or_of b3 hsnd, b4⟩
      calc (dp_alocacao_otima now drones heap mask (did :: rest)).1
          ≤ (custoDF now drones (focosAtivosLista heap) p.1 p.2).custo_total +
              (dp_alocacao_otima now drones heap (mask ||| (1 <<< p.2)) rest).1 := hstep
        _ ≤ (custoDF now drones (focosAtivosLista heap) p.1 p.2).custo_total +
              custoMatching now drones (focosAtivosLista heap) (s ++ t) := by
            linarith
        _ = custoMatching now drones (focosAtivosLista heap) A := hsum.symm
    · push_neg at hA
      have hmem' : ∀ p ∈ A, p.1 ∈ rest ∧ p.2 < (focosAtivosLista heap).length ∧
          mask &&& (1 <<< p.2) = 0 ∧
          (custoDF now drones (focosAtivosLista heap) p.1 p.2).viavel = true := by
        intro p hp
        obtain ⟨b1, b2, b3, b4⟩ := hmem p hp
        rcases List.mem_cons.mp b1 with he | hm
        · exact absurd he (hA p hp)
        · exact ⟨hm, b2, b3, b4⟩
      calc (dp_alocacao_otima now drones heap mask (did :: rest)).1
          ≤ (dp_alocacao_otima now drones heap mask rest).1 :=
            dp_fst_le_tail now drones heap mask did rest
        _ ≤ custoMatching now drones (focosAtivosLista heap) A := ih mask A hf hs hmem'

/-! ## Optimality (claim C2), feasibility (claim C3), cost accounting (claim C4) -/

/-- C2: for every active-incident heap and every duplicate-free sequence of
available drone ids, the cost returned by `dp_alocacao_otima` (called as the
optimizer does, with empty bit mask) is the least element — both attained and
a lower bound — of the set of total costs of all partial assignments in which
each unit is matched to at most one incident, each incident to at most one
unit, units may be left idle, and every matched pair is feasible per the cost
model. -/
theorem dp_alocacao_otima_custo_minimo_exato (now : ℚ) (drones : List Drone)
    (heap : List Entry) (ids : List ℕ) (h : ids.Nodup) :
    IsLeast {c : ℝ | ∃ A, MatchingValido now drones (focosAtivosLista heap) ids A ∧
        c = custoMatching now drones (focosAtivosLista heap) A}
      (dp_alocacao_otima now drones heap 0 ids).1 := by
  constructor
  · refine ⟨(dp_alocacao_otima now drones heap 0 ids).2.map (fun a => (a.1, a.2.1)),
      ?_, ?_⟩
    · obtain ⟨s1, s2, s3⟩ := dp_sound now drones heap ids 0
      refine ⟨?_, ?_, ?_⟩
      · rw [List.map_map]
        exact dp_nodup_fst now drones heap ids 0 h
      · rw [List.map_map]
        exact s3
      · intro p hp
        obtain ⟨a, ha, hpa⟩ := List.mem_map.mp hp
        obtain ⟨m1, m2, _, m4, m5⟩ := s2 a ha
        subst hpa
        refine ⟨m1, m2, ?_⟩
        rw [← m4]
        exact m5
    · obtain ⟨s1, s2, _⟩ := dp_sound now drones heap ids 0
      rw [s1]
      unfold custoMatching alocCustoSum
      rw [List.map_map]
      apply congrArg List.sum
      apply List.map_congr_left
      intro a ha
      rw [(s2 a ha).2.2.2.1]
      rfl
  · rintro c ⟨A, ⟨hf, hs, hmem⟩, rfl⟩
    apply dp_lower now drones heap ids 0 A hf hs
    intro p hp
    obtain ⟨m1, m2, m3⟩ := hmem p hp
    exact ⟨m1, m2, by rw [Nat.zero_and], m3⟩

/-- C3: every `(drone_id, focus_index, custo_info)` triple in the assignment
sequence returned by the optimizer is feasible per the cost model at call
time: the required energy `travel_time * 10 + estimated_duration * 2` does not
exceed the drone's current battery, and the drone's status is available. -/
theorem dp_alocacao_otima_pares_viaveis (now : ℚ) (drones : List Drone)
    (heap : List Entry) (mask : ℕ) (ids : List ℕ) (a : Aloc)
    (ha : a ∈ (dp_alocacao_otima now drones heap mask ids).2) :
    bateriaNecessariaRaw (drones.getD a.1 default)
        ((focosAtivosLista heap).getD a.2.1 default) ≤
      ((drones.getD a.1 default).bateria : ℝ) ∧
    (drones.getD a.1 default).status = Status.disponivel ∧
    a.2.2.viavel = true := by
  obtain ⟨_, _, _, m4, m5⟩ := (dp_sound now drones heap ids mask).2.1 a ha
  have hvi := m5
  rw [m4] at hvi
  unfold custoDF at hvi
  rw [viavel_iff] at hvi
  exact ⟨hvi.1, hvi.2, m5⟩

/-- C4 (amended): the per-pair costs the optimizer accumulates are exactly the
two-decimal-rounded `custo_total` fields produced by the cost model — the DP
total equals the sum of those rounded per-pair costs over the returned
assignment, each of which is `round2` of the unrounded cost expression. -/
theorem dp_custo_total_soma_arredondada (now : ℚ) (drones : List Drone)
    (heap : List Entry) (mask : ℕ) (ids : List ℕ) :
    (dp_alocacao_otima now drones heap mask ids).1 =
      alocCustoSum (dp_alocacao_otima now drones heap mask ids).2 ∧
    ∀ a ∈ (dp_alocacao_otima now drones heap mask ids).2,
      a.2.2.custo_total = round2 (custoTotalRaw now (drones.getD a.1 default)
        ((focosAtivosLista heap).getD a.2.1 default)) := by
  obtain ⟨s1, s2, _⟩ := dp_sound now drones heap ids mask
  refine ⟨s1, ?_⟩
  intro a ha
  rw [(s2 a ha).2.2.2.1]
  unfold custoDF
  rw [custo_total_eq]

/-- When every cost the DP can query is nonnegative, leaving every drone idle
(cost 0) is never strictly improved on, so the optimizer returns cost `0` and
the empty assignment. -/
theorem dp_eq_zero_of_nonneg (now : ℚ) (drones : List Drone) (heap : List Entry) :
    ∀ (ids : List ℕ) (mask : ℕ),
      (∀ did ∈ ids, ∀ i < (focosAtivosLista heap).length,
        0 ≤ (custoDF now drones (focosAtivosLista heap) did i).custo_total) →
      dp_alocacao_otima now drones heap mask ids = (0, []) := by
  intro ids
  induction ids with
  | nil => intro mask _; exact dp_nil now drones heap mask
  | cons did rest ih =>
    intro mask h
    rw [dp_cons]
    split_ifs with hexit
    · rfl
    · have hrest : ∀ mask', dp_alocacao_otima now drones heap mask' rest = (0, []) :=
        fun mask' => ih mask' (fun d hd => h d (List.mem_cons_of_mem did hd))
      rw [hrest mask]
      apply dpFold_no_update
      intro i hi h1 h2
      intro hlt
      have h0 := h did (List.mem_cons_self did rest) i (List.mem_range.mp hi)
      simp only [hrest] at hlt
      simp at hlt
      linarith

/-! ## Concrete cost evaluations and claims C5, C8 -/

theorem round2_eval {x : ℝ} (n : ℤ) (h : x = (n : ℝ) / 100) : round2 x = x := by
  rw [h]
  exact round2_div_100 n

theorem distancia_c1a : distanciaDF droneC1a focoC1 = 0 := by
  unfold distanciaDF droneC1a focoC1 mkFoco
  norm_num

theorem custo_c1a_agora0 : (calcular_custo_completo 0 droneC1a focoC1).custo_total = 1 / 2 := by
  rw [custo_total_eq]
  have hraw : custoTotalRaw 0 droneC1a focoC1 = 1 / 2 := by
    unfold custoTotalRaw
    rw [distancia_c1a]
    norm_num [focoC1, mkFoco, droneC1a]
  rw [hraw]
  exact round2_eval 50 (by norm_num)

theorem custo_c1a_agora36000 :
    (calcular_custo_completo 36000 droneC1a focoC1).custo_total = 3 / 2 := by
  rw [custo_total_eq]
  have hraw : custoTotalRaw 36000 droneC1a focoC1 = 3 / 2 := by
    unfold custoTotalRaw
    rw [distancia_c1a]
    norm_num [focoC1, mkFoco, droneC1a]
  rw [hraw]
  exact round2_eval 150 (by norm_num)

/-- C5 counterexample: with the unit and the incident entirely unchanged, two
calls to the cost model made at different wall-clock instants (the incident
detected at time 0; calls at 0 s and 36000 s = 10 h later) return different
`custo_total` fields (0.5 vs 1.5), because the staleness penalty reads the
clock.  The claim's "two calls with u and i unchanged yield bit-identical
output" is therefore false as stated. -/
theorem calcular_custo_depende_do_relogio :
    (calcular_custo_completo 0 droneC1a focoC1).custo_total = 1 / 2 ∧
    (calcular_custo_completo 36000 droneC1a focoC1).custo_total = 3 / 2 ∧
    calcular_custo_completo 0 droneC1a focoC1 ≠
      calcular_custo_completo 36000 droneC1a focoC1 := by
  refine ⟨custo_c1a_agora0, custo_c1a_agora36000, ?_⟩
  intro he
  have h := congrArg CustoInfo.custo_total he
  rw [custo_c1a_agora0, custo_c1a_agora36000] at h
  norm_num at h

/-- C5 (amended): the cost model is deterministic given the current state
including the clock reading: it is a pure function of the clock value and the
two records, with no hidden state or randomness, so two calls with the unit,
the incident and the clock reading unchanged return identical output in every
field. -/
theorem calcular_custo_deterministico (now : ℚ) (d₁ d₂ : Drone)
    (f₁ f₂ : FocoIncendio) (hd : d₁ = d₂) (hf : f₁ = f₂) :
    calcular_custo_completo now d₁ f₁ = calcular_custo_completo now d₂ f₂ := by
  rw [hd, hf]

/-- C5 amended-claim witness at a concrete call. -/
theorem calcular_custo_deterministico_witness :
    calcular_custo_completo 0 droneC1a focoC1 = calcular_custo_completo 0 droneC1a focoC1 :=
  calcular_custo_deterministico 0 droneC1a droneC1a focoC1 focoC1 rfl rfl

/-- C8: raising an incident's intensity, holding every other input attribute of
the incident and the unit fixed, never decreases the cost model's total cost
(the positions, wind, priority, area and detection time are all fixed; the
unit's capacity is positive as the data model requires). -/
theorem custo_monotono_na_intensidade (now : ℚ) (d : Drone) (fid : ℕ) (x y : ℚ)
    (i₁ i₂ : ℤ) (v : ℚ) (p : ℤ) (ar ts : ℚ) (st : FocoStatus)
    (hcap : 0 < d.capacidade) (h : i₁ ≤ i₂) :
    (calcular_custo_completo now d (mkFoco fid x y i₁ v p ar ts st)).custo_total ≤
      (calcular_custo_completo now d (mkFoco fid x y i₂ v p ar ts st)).custo_total := by
  rw [custo_total_eq, custo_total_eq]
  apply round2_mono
  unfold custoTotalRaw distanciaDF
  simp only [mkFoco]
  apply mul_le_mul_of_nonneg_right _ (bonus_prioridade_nonneg p)
  apply add_le_add_right
  apply add_le_add_right
  have hc : (0 : ℝ) < (d.capacidade : ℝ) := by exact_mod_cast hcap
  rw [div_le_div_iff_of_pos_right hc]
  exact mul_le_mul_of_nonneg_left (by exact_mod_cast h) (Real.sqrt_nonneg _)

/-- C8 witness: intensity 1 vs 2 for a fixed concrete unit and incident. -/
theorem custo_monotono_na_intensidade_witness :
    (calcular_custo_completo 0 droneC1a (mkFoco 0 0 0 1 1 1 1 0)).custo_total ≤
      (calcular_custo_completo 0 droneC1a (mkFoco 0 0 0 2 1 1 1 0)).custo_total :=
  custo_monotono_na_intensidade 0 droneC1a 0 0 0 1 2 1 1 1 0 FocoStatus.ativo
    (by norm_num [droneC1a]) (by norm_num)

/-! ## Claim C9: optimize() with zero available units -/

/-- C9: when no drone has status available, `executar_alocacao_otima` returns
the explicit error-dict value (no exception is modelled because none is
raised) and the system state — drones, incident queue, histories and counters
— is returned entirely unchanged. -/
theorem executar_sem_drones (now : ℚ) (s : Sistema)
    (h : ∀ d ∈ s.drones, d.status ≠ Status.disponivel) :
    executar_alocacao_otima now s = (ExecResult.erro, s) := by
  unfold executar_alocacao_otima
  have hfil : s.drones.filter (fun d => decide (d.status = Status.disponivel)) = [] := by
    rw [List.filter_eq_nil_iff]
    intro d hd
    simp [h d hd]
  rw [hfil]
  simp

/-- C9 witness: a system whose only drone is on mission. -/
theorem executar_sem_drones_witness :
    executar_alocacao_otima 0 sistemaSemDisponiveis =
      (ExecResult.erro, sistemaSemDisponiveis) := by
  apply executar_sem_drones
  intro d hd
  simp only [sistemaSemDisponiveis, List.mem_singleton] at hd
  subst hd
  simp

/-! ## Claim C10: resolving with an empty queue -/

/-- C10: when the incident queue is empty, `atender_proxima_ocorrencia`
returns the no-incident sentinel (`None`) and the entire state — every drone's
status, energy and mission history, the incident queue, the incident history
and both statistics counters — is unchanged. -/
theorem atender_fila_vazia (s : Sistema) (h : s.focosAtivos.heap = []) :
    atender_proxima_ocorrencia s = (none, s) := by
  have hext : s.focosAtivos.extrair_proximo = (none, s.focosAtivos) := by
    unfold FilaPrioridade.extrair_proximo
    rw [h]
  unfold atender_proxima_ocorrencia
  rw [hext]

/-- C10 witness: a concrete system with an empty queue. -/
theorem atender_fila_vazia_witness :
    atender_proxima_ocorrencia sistemaFilaVazia = (none, sistemaFilaVazia) :=
  atender_fila_vazia sistemaFilaVazia rfl

/-! ## Claim C6: resolving an incident -/

theorem liberarDrone_em_missao (fid : ℕ) (d : Drone)
    (h1 : d.status = Status.em_missao)
    (h2 : d.historico_missoes.any (fun m => m.foco_id == fid) = true) :
    liberarDrone fid d =
      { d with status := Status.disponivel, bateria := max 20 (d.bateria - 15) } := by
  unfold liberarDrone
  rw [if_pos ⟨h1, h2⟩]

theorem liberarDrone_id (fid : ℕ) (d : Drone)
    (h : ¬(d.status = Status.em_missao ∧
      d.historico_missoes.any (fun m => m.foco_id == fid) = true)) :
    liberarDrone fid d = d := by
  unfold liberarDrone
  rw [if_neg h]

/-- C6 (amended): resolving the next incident marks it contained and appends
it to the history, bumps the attended counter, touches nothing else, and
rewrites the fleet with the release step: a unit that is currently on mission
and whose mission history references the incident becomes available with
energy `max 20 (bateria - 15)` (a decrement of 15 floored at 20, so never
below the floor) and all other fields intact; every other unit — including a
unit whose history references the incident but which is not on mission — is
left completely unchanged. -/
theorem atender_caracterizacao (s : Sistema) (e : Entry) (t : List Entry)
    (h : s.focosAtivos.heap = e :: t) :
    (atender_proxima_ocorrencia s).1 = none ∧
    (atender_proxima_ocorrencia s).2.focosAtivos.heap = t ∧
    (atender_proxima_ocorrencia s).2.focosHistorico =
      s.focosHistorico ++ [{ e.foco with status := FocoStatus.controlado }] ∧
    (atender_proxima_ocorrencia s).2.focosAtendidos = s.focosAtendidos + 1 ∧
    (atender_proxima_ocorrencia s).2.focosDetectados = s.focosDetectados ∧
    (atender_proxima_ocorrencia s).2.historicoOperacoes = s.historicoOperacoes ∧
    (atender_proxima_ocorrencia s).2.drones = s.drones.map (liberarDrone e.foco.id) ∧
    (∀ d : Drone, d.status = Status.em_missao →
      d.historico_missoes.any (fun m => m.foco_id == e.foco.id) = true →
        (liberarDrone e.foco.id d).status = Status.disponivel ∧
        (liberarDrone e.foco.id d).bateria = max 20 (d.bateria - 15) ∧
        20 ≤ (liberarDrone e.foco.id d).bateria ∧
        (liberarDrone e.foco.id d).historico_missoes = d.historico_missoes ∧
        (liberarDrone e.foco.id d).x = d.x ∧ (liberarDrone e.foco.id d).y = d.y ∧
        (liberarDrone e.foco.id d).id = d.id) ∧
    (∀ d : Drone, ¬(d.status = Status.em_missao ∧
        d.historico_missoes.any (fun m => m.foco_id == e.foco.id) = true) →
      liberarDrone e.foco.id d = d) := by
  have hext : s.focosAtivos.extrair_proximo =
      (some e.foco, { heap := t, contador := s.focosAtivos.contador }) := by
    unfold FilaPrioridade.extrair_proximo
    rw [h]
  unfold atender_proxima_ocorrencia
  rw [hext]
  refine ⟨rfl, rfl, rfl, rfl, rfl, rfl, rfl, ?_, ?_⟩
  · intro d h1 h2
    rw [liberarDrone_em_missao e.foco.id d h1 h2]
    exact ⟨rfl, rfl, le_max_left 20 _, rfl, rfl, rfl, rfl⟩
  · intro d hneg
    exact liberarDrone_id e.foco.id d hneg

/-- C6 amended-claim witness: the maintenance-drone state (its only drone is
not on mission, so the release step leaves it unchanged). -/
theorem atender_caracterizacao_witness :
    (atender_proxima_ocorrencia sistemaManut).2.drones =
      [droneManut].map (liberarDrone foco7.id) ∧
    liberarDrone foco7.id droneManut = droneManut := by
  have hchar := atender_caracterizacao sistemaManut
    { prioridade := -(escore 0 foco7), contador := 0, foco := foco7 } [] rfl
  refine ⟨hchar.2.2.2.2.2.2.1, ?_⟩
  apply hchar.2.2.2.2.2.2.2.2
  intro hcontra
  have := hcontra.1
  simp [droneManut] at this

/-- C6 counterexample: in `sistemaManut` the resolved incident is focus 7 and
the only drone's mission history references focus 7, yet after
`atender_proxima_ocorrencia` that drone is still in maintenance (and its
battery is untouched), not released to available as the claim requires of
"every unit whose mission history references that incident". -/
theorem atender_nao_libera_drone_em_manutencao :
    ((atender_proxima_ocorrencia sistemaManut).2.drones.getD 0 default).status =
      Status.manutencao ∧
    ((atender_proxima_ocorrencia sistemaManut).2.drones.getD 0 default).bateria = 100 ∧
    droneManut.historico_missoes.any (fun m => m.foco_id == foco7.id) = true ∧
    Status.manutencao ≠ Status.disponivel := by
  have hid : liberarDrone foco7.id droneManut = droneManut := by
    apply liberarDrone_id
    intro hcontra
    have := hcontra.1
    simp [droneManut] at this
  have hdr : (atender_proxima_ocorrencia sistemaManut).2.drones = [droneManut] := by
    unfold atender_proxima_ocorrencia
    rw [show sistemaManut.focosAtivos.extrair_proximo =
      (some foco7, { heap := [], contador := sistemaManut.focosAtivos.contador })
      from rfl]
    simp [sistemaManut, hid]
  rw [hdr]
  refine ⟨by simp [droneManut], by simp [droneManut], ?_, by simp⟩
  simp [droneManut, foco7, mkFoco]

/-! ## Claim C7: priority-queue extraction order -/

theorem inv_vazia : FilaInv {} :=
  ⟨List.sorted_nil, by simp, by simp⟩

theorem inv_inserir (q : FilaPrioridade) (now : ℚ) (f : FocoIncendio)
    (hq : FilaInv q) : FilaInv (q.inserir now f) := by
  obtain ⟨h1, h2, h3⟩ := hq
  refine ⟨List.Sorted.orderedInsert _ _ h1, ?_, ?_⟩
  · have hp := List.perm_orderedInsert entryLE
      { prioridade := -(escore now f), contador := q.contador, foco := f } q.heap
    have hmap := hp.map (·.contador)
    apply hmap.nodup_iff.mpr
    rw [List.map_cons, List.nodup_cons]
    refine ⟨?_, h2⟩
    intro hmem
    obtain ⟨e, he, hce⟩ := List.mem_map.mp hmem
    exact absurd hce (Nat.ne_of_lt (h3 e he))
  · intro e he
    rcases (List.mem_orderedInsert entryLE).mp he with he0 | heh
    · rw [he0]
      exact Nat.lt_succ_self _
    · exact Nat.lt_succ_of_lt (h3 e heh)

theorem inv_foldl : ∀ (L : List (ℚ × FocoIncendio)) (q : FilaPrioridade),
    FilaInv q → FilaInv (L.foldl (fun q tf => q.inserir tf.1 tf.2) q) := by
  intro L
  induction L with
  | nil => intro q hq; exact hq
  | cons tf rest ih => intro q hq; exact ih _ (inv_inserir q tf.1 tf.2 hq)

theorem inv_insereTodos (L : List (ℚ × FocoIncendio)) : FilaInv (insereTodos L) :=
  inv_foldl L {} inv_vazia

theorem heap_foldl_perm : ∀ (L : List (ℚ × FocoIncendio)) (q : FilaPrioridade),
    (L.foldl (fun q tf => q.inserir tf.1 tf.2) q).heap.Perm
      ((L.enumFrom q.contador).map
        (fun nc => { prioridade := -(escore nc.2.1 nc.2.2), contador := nc.1,
                     foco := nc.2.2 }) ++ q.heap) := by
  intro L
  induction L with
  | nil => intro q; simp
  | cons tf rest ih =>
    intro q
    have h1 := ih (q.inserir tf.1 tf.2)
    have h2 : (q.inserir tf.1 tf.2).heap.Perm
        ({ prioridade := -(escore tf.1 tf.2), contador := q.contador, foco := tf.2 }
          :: q.heap) :=
      List.perm_orderedInsert _ _ _
    rw [List.foldl_cons]
    refine h1.trans ?_
    refine ((List.Perm.append_left _ h2).trans List.perm_middle).trans ?_
    rw [show List.enumFrom q.contador (tf :: rest) =
      (q.contador, tf) :: List.enumFrom (q.contador + 1) rest from rfl]
    rw [List.map_cons, List.cons_append]
    exact List.Perm.refl _

theorem heap_pairwise_chave (q : FilaPrioridade) (hq : FilaInv q) :
    q.heap.Pairwise (fun a b => a.prioridade < b.prioridade ∨
      (a.prioridade = b.prioridade ∧ a.contador < b.contador)) := by
  obtain ⟨h1, h2, _⟩ := hq
  have hne : q.heap.Pairwise (fun a b => a.contador ≠ b.contador) :=
    List.pairwise_map.mp h2
  have hand := List.Pairwise.and h1 hne
  apply hand.imp
  intro a b hab
  rcases hab.1 with hlt | ⟨heq, hle⟩
  · exact Or.inl hlt
  · exact Or.inr ⟨heq, lt_of_le_of_ne hle hab.2⟩

/-- C7: (1) `drain` is exactly the repeated-`extrair_proximo` sequence;
(2) for every insertion sequence into a fresh queue, the heap holds precisely
the inserted incidents keyed by the score frozen at each one's insertion time
(`prioridade = -escore`, `contador` = insertion position), the extraction
sequence is the heap sequence, and consecutive extracted entries come in
strictly increasing `(prioridade, contador)` order — i.e. strictly decreasing
frozen score, with ties among equal scores broken by insertion order (FIFO);
(3) concretely, inserting incidents with scores 5, 3, 8 in that order yields
extraction order 8, 5, 3. -/
theorem fila_prioridade_extracao_ordenada :
    (∀ q : FilaPrioridade,
      drain q = (match q.extrair_proximo with
        | (none, _) => ([] : List FocoIncendio)
        | (some f, q2) => f :: drain q2)) ∧
    (∀ L : List (ℚ × FocoIncendio),
      (insereTodos L).heap.Perm ((L.enumFrom 0).map
        (fun nc => { prioridade := -(escore nc.2.1 nc.2.2), contador := nc.1,
                     foco := nc.2.2 })) ∧
      drain (insereTodos L) = (insereTodos L).heap.map (·.foco) ∧
      (insereTodos L).heap.Pairwise (fun a b => a.prioridade < b.prioridade ∨
        (a.prioridade = b.prioridade ∧ a.contador < b.contador))) ∧
    drain (insereTodos [(0, focoS5), (0, focoS3), (0, focoS8)]) =
      [focoS8, focoS5, focoS3] := by
  refine ⟨?_, ?_, ?_⟩
  · intro q
    obtain ⟨heap, c⟩ := q
    cases heap with
    | nil => rfl
    | cons e t => rfl
  · intro L
    refine ⟨?_, rfl, heap_pairwise_chave _ (inv_insereTodos L)⟩
    have hp := heap_foldl_perm L {}
    simpa [insereTodos] using hp
  · have h5 : escore 0 focoS5 = 5 := by norm_num [escore, focoS5, mkFoco]
    have h3' : escore 0 focoS3 = 3 := by norm_num [escore, focoS3, mkFoco]
    have h8 : escore 0 focoS8 = 8 := by norm_num [escore, focoS8, mkFoco]
    simp only [insereTodos, List.foldl_cons, List.foldl_nil, FilaPrioridade.inserir]
    rw [h5, h3', h8]
    norm_num [drain, List.orderedInsert, entryLE]

/-! ## Concrete optimizer runs (negative staleness penalty) -/

theorem round2_zero : round2 (0 : ℝ) = 0 := by
  have h := round2_intCast 0
  simpa using h

theorem round2_neg_one : round2 (-1 : ℝ) = -1 := by
  have h := round2_intCast (-1)
  push_cast at h
  exact h

theorem round2_one : round2 (1 : ℝ) = 1 := by
  have h := round2_intCast 1
  simpa using h

theorem round2_fourteen : round2 (14 : ℝ) = 14 := by
  have h := round2_intCast 14
  push_cast at h
  exact h

theorem distancia_neg : distanciaDF droneNeg focoFuturo = 0 := by
  unfold distanciaDF droneNeg focoFuturo mkFoco
  norm_num

theorem calcular_neg_eval : calcular_custo_completo 0 droneNeg focoFuturo = ciNeg := by
  have hraw : custoTotalRaw 0 droneNeg focoFuturo = -1 := by
    unfold custoTotalRaw
    rw [distancia_neg]
    norm_num [focoFuturo, mkFoco, droneNeg]
  have hbat : bateriaNecessariaRaw droneNeg focoFuturo = 14 := by
    unfold bateriaNecessariaRaw
    rw [distancia_neg]
    norm_num [focoFuturo, mkFoco, truncInt, droneNeg]
  unfold calcular_custo_completo ciNeg
  rw [hraw, hbat, distancia_neg]
  simp only [CustoInfo.mk.injEq]
  refine ⟨round2_neg_one, round2_zero, ?_, ?_, ?_, round2_fourteen, ?_⟩
  · rw [show (0 : ℝ) / (droneNeg.velocidade : ℝ) = 0 by norm_num]
    exact round2_zero
  · rw [show (0 : ℝ) * (2 - (droneNeg.capacidade : ℝ) / 3) = 0 by ring]
    exact round2_zero
  · rw [show min ((droneNeg.capacidade : ℝ) / (focoFuturo.recursos_necessarios : ℝ)) 1
        = 1 by norm_num [droneNeg, focoFuturo, mkFoco]]
    exact round2_one
  · rw [decide_eq_true_eq]
    refine ⟨by norm_num [droneNeg], rfl⟩

theorem focosAtivos_heapNeg : focosAtivosLista heapNeg = [focoFuturo] := by
  have hst : focoFuturo.status = FocoStatus.ativo := rfl
  simp [heapNeg, FilaPrioridade.inserir, List.orderedInsert, focosAtivosLista, hst]

theorem dp_neg_eval :
    dp_alocacao_otima 0 [droneNeg] heapNeg 0 [0] = (-1, [(0, 0, ciNeg)]) := by
  have hci : custoDF 0 [droneNeg] [focoFuturo] 0 0 = ciNeg := by
    unfold custoDF
    exact calcular_neg_eval
  have hexit : ¬([focoFuturo] = [] ∨ (0 : ℕ) = (1 <<< ([focoFuturo] : List FocoIncendio).length) - 1) := by
    rintro (h | h)
    · exact List.cons_ne_nil _ _ h
    · rw [List.length_singleton] at h
      exact absurd h (by decide)
  have hstep : dpStep 0 [droneNeg] [focoFuturo] 0 0
      (fun m => dp_alocacao_otima 0 [droneNeg] heapNeg m []) (0, []) 0 =
      (-1, [(0, 0, ciNeg)]) := by
    unfold dpStep
    rw [hci]
    rw [if_pos (show (0 : ℕ) &&& (1 <<< 0) = 0 by decide)]
    rw [if_pos (show ciNeg.viavel = true from rfl)]
    simp only [dp_nil]
    rw [if_pos (by norm_num [ciNeg])]
    norm_num [ciNeg]
  rw [dp_cons, focosAtivos_heapNeg, if_neg hexit, List.length_singleton, dp_nil,
    show List.range 1 = [0] by decide]
  unfold dpFold
  exact hstep

/-- C3 witness: a concrete state (future-dated incident, hence negative cost)
in which the optimizer returns a nonempty assignment; the returned pair
satisfies the feasibility conditions. -/
theorem dp_alocacao_otima_pares_viaveis_witness :
    ((0, 0, ciNeg) : Aloc) ∈ (dp_alocacao_otima 0 [droneNeg] heapNeg 0 [0]).2 ∧
    (bateriaNecessariaRaw ([droneNeg].getD 0 default)
        ((focosAtivosLista heapNeg).getD 0 default) ≤
      (([droneNeg].getD 0 default).bateria : ℝ) ∧
    ([droneNeg].getD 0 default).status = Status.disponivel ∧
    ((0, 0, ciNeg) : Aloc).2.2.viavel = true) := by
  have hmem : ((0, 0, ciNeg) : Aloc) ∈ (dp_alocacao_otima 0 [droneNeg] heapNeg 0 [0]).2 := by
    rw [dp_neg_eval]
    exact List.mem_singleton.mpr rfl
  exact ⟨hmem, dp_alocacao_otima_pares_viaveis 0 [droneNeg] heapNeg 0 [0] (0, 0, ciNeg) hmem⟩

/-- C2 witness: the exact-minimum property applied to the same concrete state. -/
theorem dp_alocacao_otima_custo_minimo_exato_witness :
    IsLeast {c : ℝ | ∃ A, MatchingValido 0 [droneNeg] (focosAtivosLista heapNeg) [0] A ∧
        c = custoMatching 0 [droneNeg] (focosAtivosLista heapNeg) A}
      (dp_alocacao_otima 0 [droneNeg] heapNeg 0 [0]).1 :=
  dp_alocacao_otima_custo_minimo_exato 0 [droneNeg] heapNeg [0] (by simp)

/-! ## Claim C4: rounding inside the recursion -/

theorem round2_neg_tie : round2 (-(201 / 200) : ℝ) = -1 := by
  unfold round2
  rw [show (-(201 / 200) : ℝ) * 100 = -100.5 by norm_num]
  have hfl : ⌊(-100.5 : ℝ)⌋ = -101 := by norm_num
  have hfr : Int.fract (-100.5 : ℝ) = 1 / 2 := by
    rw [Int.fract, hfl]
    norm_num
  unfold rhe
  rw [if_pos hfr, hfl, if_neg (by decide : ¬Even (-101 : ℤ))]
  norm_num

theorem distancia_neg2 : distanciaDF droneNeg focoFuturo2 = 0 := by
  unfold distanciaDF droneNeg focoFuturo2 mkFoco
  norm_num

theorem custoTotalRaw_neg2 : custoTotalRaw 0 droneNeg focoFuturo2 = -(201 / 200) := by
  unfold custoTotalRaw
  rw [distancia_neg2]
  norm_num [focoFuturo2, mkFoco, droneNeg]

theorem calcular_neg2_eval : calcular_custo_completo 0 droneNeg focoFuturo2 = ciNeg := by
  have hbat : bateriaNecessariaRaw droneNeg focoFuturo2 = 14 := by
    unfold bateriaNecessariaRaw
    rw [distancia_neg2]
    norm_num [focoFuturo2, mkFoco, truncInt, droneNeg]
  unfold calcular_custo_completo ciNeg
  rw [custoTotalRaw_neg2, hbat, distancia_neg2]
  simp only [CustoInfo.mk.injEq]
  refine ⟨round2_neg_tie, round2_zero, ?_, ?_, ?_, round2_fourteen, ?_⟩
  · rw [show (0 : ℝ) / (droneNeg.velocidade : ℝ) = 0 by norm_num]
    exact round2_zero
  · rw [show (0 : ℝ) * (2 - (droneNeg.capacidade : ℝ) / 3) = 0 by ring]
    exact round2_zero
  · rw [show min ((droneNeg.capacidade : ℝ) / (focoFuturo2.recursos_necessarios : ℝ)) 1
        = 1 by norm_num [droneNeg, focoFuturo2, mkFoco]]
    exact round2_one
  · rw [decide_eq_true_eq]
    exact ⟨by norm_num [droneNeg], rfl⟩

theorem focosAtivos_heapNeg2 : focosAtivosLista heapNeg2 = [focoFuturo2] := by
  have hst : focoFuturo2.status = FocoStatus.ativo := rfl
  simp [heapNeg2, FilaPrioridade.inserir, List.orderedInsert, focosAtivosLista, hst]

theorem dp_neg2_eval :
    dp_alocacao_otima 0 [droneNeg] heapNeg2 0 [0] = (-1, [(0, 0, ciNeg)]) := by
  have hci : custoDF 0 [droneNeg] [focoFuturo2] 0 0 = ciNeg := by
    unfold custoDF
    exact calcular_neg2_eval
  have hexit : ¬([focoFuturo2] = [] ∨
      (0 : ℕ) = (1 <<< ([focoFuturo2] : List FocoIncendio).length) - 1) := by
    rintro (h | h)
    · exact List.cons_ne_nil _ _ h
    · rw [List.length_singleton] at h
      exact absurd h (by decide)
  have hstep : dpStep 0 [droneNeg] [focoFuturo2] 0 0
      (fun m => dp_alocacao_otima 0 [droneNeg] heapNeg2 m []) (0, []) 0 =
      (-1, [(0, 0, ciNeg)]) := by
    unfold dpStep
    rw [hci]
    rw [if_pos (show (0 : ℕ) &&& (1 <<< 0) = 0 by decide)]
    rw [if_pos (show ciNeg.viavel = true from rfl)]
    simp only [dp_nil]
    rw [if_pos (by norm_num [ciNeg])]
    norm_num [ciNeg]
  rw [dp_cons, focosAtivos_heapNeg2, if_neg hexit, List.length_singleton, dp_nil,
    show List.range 1 = [0] by decide]
  unfold dpFold
  exact hstep

/-- C4 counterexample: for the concrete state whose single feasible pair has
unrounded cost `-1.005`, the optimizer selects that pair and returns total
`-1.0` — the two-decimal-rounded per-pair cost — which differs from the
unrounded per-pair cost.  So the total accumulated across the DP recursion is
not computed from unrounded per-pair costs: rounding happens inside the cost
model and the recursion consumes the rounded values. -/
theorem dp_usa_custos_arredondados_cex :
    custoTotalRaw 0 droneNeg focoFuturo2 = -(201 / 200) ∧
    (dp_alocacao_otima 0 [droneNeg] heapNeg2 0 [0]).2 = [(0, 0, ciNeg)] ∧
    (dp_alocacao_otima 0 [droneNeg] heapNeg2 0 [0]).1 = -1 ∧
    (dp_alocacao_otima 0 [droneNeg] heapNeg2 0 [0]).1 ≠
      custoTotalRaw 0 droneNeg focoFuturo2 := by
  refine ⟨custoTotalRaw_neg2, ?_, ?_, ?_⟩
  · rw [dp_neg2_eval]
  · rw [dp_neg2_eval]
  · rw [dp_neg2_eval, custoTotalRaw_neg2]
    norm_num

/-- C4 amended-claim witness: at the same concrete state, the assignment pair
is in the result, its reported cost is the rounding of the unrounded cost, and
the DP total is the sum of the reported (rounded) costs. -/
theorem dp_custo_total_soma_arredondada_witness :
    ((0, 0, ciNeg) : Aloc) ∈ (dp_alocacao_otima 0 [droneNeg] heapNeg2 0 [0]).2 ∧
    ((0, 0, ciNeg) : Aloc).2.2.custo_total =
      round2 (custoTotalRaw 0 ([droneNeg].getD 0 default)
        ((focosAtivosLista heapNeg2).getD ((0, 0, ciNeg) : Aloc).2.1 default)) ∧
    (dp_alocacao_otima 0 [droneNeg] heapNeg2 0 [0]).1 =
      alocCustoSum (dp_alocacao_otima 0 [droneNeg] heapNeg2 0 [0]).2 := by
  have hmem : ((0, 0, ciNeg) : Aloc) ∈ (dp_alocacao_otima 0 [droneNeg] heapNeg2 0 [0]).2 := by
    rw [dp_neg2_eval]
    exact List.mem_singleton.mpr rfl
  obtain ⟨h1, h2⟩ := dp_custo_total_soma_arredondada 0 [droneNeg] heapNeg2 0 [0]
  exact ⟨hmem, h2 (0, 0, ciNeg) hmem, h1⟩

/-! ## Claim C1: the concrete two-unit scenario -/

theorem focosAtivos_c1 : focosAtivosLista sistemaC1.focosAtivos.heap = [focoC1] := by
  have hst : focoC1.status = FocoStatus.ativo := rfl
  simp [sistemaC1, FilaPrioridade.inserir, List.orderedInsert, focosAtivosLista, hst]

theorem drones_disponiveis_c1 :
    (sistemaC1.drones.filter (fun d => decide (d.status = Status.disponivel))).map (·.id)
      = [0, 1] := rfl

theorem dp_c1_eval :
    dp_alocacao_otima 0 sistemaC1.drones sistemaC1.focosAtivos.heap 0 [0, 1] = (0, []) := by
  apply dp_eq_zero_of_nonneg
  intro did hdid i hi
  rw [focosAtivos_c1] at hi ⊢
  rw [List.length_singleton] at hi
  interval_cases i
  unfold custoDF
  rw [show ([focoC1] : List FocoIncendio).getD 0 default = focoC1 from rfl]
  rw [show sistemaC1.drones = [droneC1a, droneC1b] from rfl]
  fin_cases hdid
  · rw [show ([droneC1a, droneC1b] : List Drone).getD 0 default = droneC1a from rfl]
    apply custo_total_nonneg
    · norm_num [focoC1, mkFoco]
    · norm_num [focoC1, mkFoco]
    · norm_num [focoC1, mkFoco]
    · norm_num [droneC1a]
  · rw [show ([droneC1a, droneC1b] : List Drone).getD 1 default = droneC1b from rfl]
    apply custo_total_nonneg
    · norm_num [focoC1, mkFoco]
    · norm_num [focoC1, mkFoco]
    · norm_num [focoC1, mkFoco]
    · norm_num [droneC1b]

/-- C1 (code bug): in the spec's concrete scenario — two available units at
(0,0) and (10,10) with battery 100, capacity 2.0 (speed 30, wind factor 1),
and a single just-detected active incident at (0,0) with intensity 1,
priority 1, area 1.0 — the optimizer does NOT assign the nearer unit: it
returns total cost `0.0` with an empty assignment list and leaves both units
untouched, while the nearer unit's own breakdown cost is `0.5 ≠ 0`.  Idling
is free, every pair cost is nonnegative, and only strictly cheaper candidates
replace the current best, so the all-idle option always wins. -/
theorem executar_cenario_c1_nao_aloca :
    (executar_alocacao_otima 0 sistemaC1).1 = ExecResult.ok 0 [] ∧
    (executar_alocacao_otima 0 sistemaC1).2.drones = sistemaC1.drones ∧
    (calcular_custo_completo 0 droneC1a focoC1).custo_total = 1 / 2 ∧
    ((1 : ℝ) / 2) ≠ 0 := by
  have hexec : executar_alocacao_otima 0 sistemaC1 =
      (ExecResult.ok 0 [],
       { sistemaC1 with
         historicoOperacoes := sistemaC1.historicoOperacoes ++ [⟨0, 0⟩] }) := by
    simp only [executar_alocacao_otima]
    rw [drones_disponiveis_c1]
    rw [if_neg (by simp : ¬([0, 1] : List ℕ) = [])]
    rw [dp_c1_eval]
    simp
  refine ⟨by rw [hexec], by rw [hexec], custo_c1a_agora0, by norm_num⟩
